import Mathlib

/-
Verification of the jsonkit query-matching and fluent-chain evaluation engine.

The JavaScript sources are embedded shallowly:
 * JSON-like runtime values become the inductive `Value` (mutually defined
   with `ValueList` and `FieldList` so that equality is decidable and all
   evaluators are structurally recursive).  JS numbers are restricted to the
   integer fragment (no floats, hence no NaN besides the explicit
   `Option Int` result of coercion).
 * A document is its field list (`Doc`); a collection is a `List Doc`.
 * Objects and arrays compare by reference in JS; the model treats distinct
   structural objects as distinct references (strict equality on them is
   `false`), which is faithful whenever query literals and documents are
   separately constructed values, as in every claim considered here.
 * The host regular-expression engine is an external collaborator and is
   passed as an explicit parameter `regexTest` (raw operand, stringified
   field value) to every evaluator that reaches the `$regex` case.
 * Throwing JS code either returns the error explicitly
   (`Chain.addCondition`) or is outside each claim's domain; those spots are
   marked in comments.
-/

mutual

inductive Value where
  | undef
  | null
  | bool (b : Bool)
  | num (n : Int)
  | str (s : String)
  | arr (xs : ValueList)
  | obj (fields : FieldList)
deriving DecidableEq

inductive ValueList where
  | nil
  | cons (v : Value) (rest : ValueList)
deriving DecidableEq

inductive FieldList where
  | nil
  | cons (k : String) (v : Value) (rest : FieldList)
deriving DecidableEq

end

abbrev Doc := FieldList

/-- JS object property lookup (first binding wins; JS objects have unique keys). -/
def FieldList.lookup? (k : String) : FieldList → Option Value
  | .nil => none
  | .cons k' v rest => if k' == k then some v else rest.lookup? k

/-- `doc[key]`: the field value, or `undefined` when the key is absent. -/
def getField (doc : Doc) (k : String) : Value :=
  match doc.lookup? k with
  | some v => v
  | none => .undef

def FieldList.isEmpty : FieldList → Bool
  | .nil => true
  | .cons _ _ _ => false

/-- JS property write `o[k] = v`: an existing key keeps its position, a new
key is appended at the end (JS insertion-order enumeration). -/
def FieldList.setKey : FieldList → String → Value → FieldList
  | .nil, k, v => .cons k v .nil
  | .cons k' v' rest, k, v =>
    if k' == k then .cons k' v rest else .cons k' v' (rest.setKey k v)

def FieldList.append : FieldList → FieldList → FieldList
  | .nil, gs => gs
  | .cons k v rest, gs => .cons k v (rest.append gs)

/-- JS strict equality `===` on the value model.  Primitives compare by
value; arrays and objects compare by reference, modelled as always-false
for structurally distinct construction sites (see header comment). -/
def strictEq : Value → Value → Bool
  | .undef, .undef => true
  | .null, .null => true
  | .bool a, .bool b => a == b
  | .num a, .num b => a == b
  | .str a, .str b => a == b
  | _, _ => false

/-- JS truthiness. -/
def truthy : Value → Bool
  | .undef => false
  | .null => false
  | .bool b => b
  | .num n => n != 0
  | .str s => !s.isEmpty
  | .arr _ => true
  | .obj _ => true

/-- `key.startsWith('$')` as used by the matcher's operator dispatch. -/
def isOpKey (k : String) : Bool :=
  k.data.head? == some '$'

/-- Character-list prefix test (JS `String.prototype.startsWith`). -/
def leadMatch : List Char → List Char → Bool
  | [], _ => true
  | _ :: _, [] => false
  | c :: cs, d :: ds => c == d && leadMatch cs ds

/-- Substring occurrence test (JS `String.prototype.includes`). -/
def hasSub (t : List Char) : List Char → Bool
  | [] => leadMatch t []
  | c :: srest => leadMatch t (c :: srest) || hasSub t srest

def strBegins (s pre : String) : Bool :=
  leadMatch pre.data s.data

def strEnds (s suf : String) : Bool :=
  leadMatch suf.data.reverse s.data.reverse

def strHas (s sub : String) : Bool :=
  hasSub sub.data s.data

/-- Lexicographic code-point comparison of strings (JS compares UTF-16 code
units; the two agree on the basic multilingual plane). -/
def charsLt : List Char → List Char → Bool
  | [], [] => false
  | [], _ :: _ => true
  | _ :: _, [] => false
  | c :: cs, d :: ds => if c == d then charsLt cs ds else decide (c < d)

/-- The characters `ToNumber` trims from a string: the ECMAScript
`WhiteSpace` set (TAB, VT, FF, SP, NBSP, ZWNBSP and the Unicode
space-separator category) plus the `LineTerminator` set (LF, CR, LS, PS). -/
def isWsChar (c : Char) : Bool :=
  c == ' ' || c == '\t' || c == '\n' || c == '\r'
  || c == '\u000B' || c == '\u000C' || c == '\u00A0' || c == '\uFEFF'
  || c == '\u1680' || (decide ('\u2000' ≤ c) && decide (c ≤ '\u200A'))
  || c == '\u202F' || c == '\u205F' || c == '\u3000'
  || c == '\u2028' || c == '\u2029'

/-- Trimmed character list of a string, as `ToNumber` sees it. -/
def jsTrim (s : String) : List Char :=
  ((s.data.dropWhile isWsChar).reverse.dropWhile isWsChar).reverse

def digitStep (acc : Option Nat) (c : Char) : Option Nat :=
  match acc with
  | none => none
  | some n => if c.isDigit then some (n * 10 + (c.toNat - 48)) else none

/-- All-decimal-digit parse used by string-to-number coercion. -/
def digitsToNat (cs : List Char) : Option Nat :=
  cs.foldl digitStep (some 0)

def strToNumberAux (cs : List Char) : Option Int :=
  match cs with
  | [] => some 0
  | c :: rest =>
    if c = '-' then
      if rest.isEmpty then none else (digitsToNat rest).map (fun n => -(n : Int))
    else if c = '+' then
      if rest.isEmpty then none else (digitsToNat rest).map (fun n => (n : Int))
    else (digitsToNat (c :: rest)).map (fun n => (n : Int))

/-- JS `ToNumber` on strings, restricted to the VALUE model's integer
fragment: whitespace-only coerces to 0 and an optionally signed run of
decimal digits parses numerically.  Every other string yields `none`,
which overapproximates JS NaN — JS additionally coerces fraction,
exponent, hex/octal/binary and `Infinity` forms, whose values fall
outside the integer model.  No theorem reads a `none` result as NaN on
those forms: NaN-ness is classified faithfully and purely syntactically
by `jsNumericStr` below, which is what the cross-type comparison theorem
hypothesises. -/
def strToNumber (s : String) : Option Int :=
  strToNumberAux (jsTrim s)

def hexDigitChar (c : Char) : Bool :=
  c.isDigit || (decide ('a' ≤ c) && decide (c ≤ 'f'))
  || (decide ('A' ≤ c) && decide (c ≤ 'F'))

def octDigitChar (c : Char) : Bool :=
  decide ('0' ≤ c) && decide (c ≤ '7')

def binDigitChar (c : Char) : Bool :=
  c == '0' || c == '1'

/-- `SignedInteger` of an exponent part: optional sign, then digits. -/
def jsSignedDigits : List Char → Bool
  | [] => false
  | c :: rest =>
    if c = '+' || c = '-' then !rest.isEmpty && rest.all Char.isDigit
    else (c :: rest).all Char.isDigit

/-- Optional `ExponentPart`: empty, or `e`/`E` followed by a signed
digit run. -/
def jsExponent : List Char → Bool
  | [] => true
  | c :: rest => (c == 'e' || c == 'E') && jsSignedDigits rest

/-- `StrUnsignedDecimalLiteral`: `Infinity`, `digits [. digits] [exp]`,
`digits . [digits] [exp]` or `. digits [exp]`. -/
def jsUnsignedDecimal (cs : List Char) : Bool :=
  cs == "Infinity".data
  || (let ip := cs.takeWhile Char.isDigit
      let rest := cs.dropWhile Char.isDigit
      if ip.isEmpty then
        match rest with
        | '.' :: rest2 =>
          !(rest2.takeWhile Char.isDigit).isEmpty
            && jsExponent (rest2.dropWhile Char.isDigit)
        | _ => false
      else
        match rest with
        | '.' :: rest2 => jsExponent (rest2.dropWhile Char.isDigit)
        | _ => jsExponent rest)

/-- `NonDecimalIntegerLiteral`: `0x`/`0X`, `0o`/`0O` or `0b`/`0B` followed
by a non-empty run of digits of the base (no sign allowed). -/
def nonDecimalLiteral : List Char → Bool
  | z :: x :: rest =>
    z == '0'
    && (((x == 'x' || x == 'X') && !rest.isEmpty && rest.all hexDigitChar)
        || ((x == 'o' || x == 'O') && !rest.isEmpty && rest.all octDigitChar)
        || ((x == 'b' || x == 'B') && !rest.isEmpty && rest.all binDigitChar))
  | _ => false

def jsNumericStrAux : List Char → Bool
  | [] => true
  | c :: rest =>
    nonDecimalLiteral (c :: rest)
    || (if c = '+' then jsUnsignedDecimal rest
        else if c = '-' then jsUnsignedDecimal rest
        else jsUnsignedDecimal (c :: rest))

/-- The ECMAScript `StringNumericLiteral` grammar: `ToNumber(s)` is NaN
exactly when `jsNumericStr s = false` (a whitespace-only string coerces
to 0; a grammar match always produces a number, possibly an infinity).
Whether a string is NaN under `ToNumber` is a purely syntactic question,
so this classifier is exact even though the value model restricts numeric
VALUES to integers. -/
def jsNumericStr (s : String) : Bool :=
  jsNumericStrAux (jsTrim s)

def intToStr (n : Int) : String :=
  toString n

mutual

/-- JS `String(value)` string coercion. -/
def toStringJS : Value → String
  | .undef => "undefined"
  | .null => "null"
  | .bool b => if b then "true" else "false"
  | .num n => intToStr n
  | .str s => s
  | .arr xs => arrJoin xs
  | .obj _ => "[object Object]"

/-- `Array.prototype.toString`: elements joined with commas, where `null`
and `undefined` render as the empty string. -/
def arrJoin : ValueList → String
  | .nil => ""
  | .cons v rest =>
    (match v with
     | .undef => ""
     | .null => ""
     | w => toStringJS w)
    ++ (match rest with
        | .nil => ""
        | _ => "," ++ arrJoin rest)

end

/-- JS `ToPrimitive` with number hint as exercised by relational operators:
arrays and plain objects fall back to their string form, primitives are
returned unchanged. -/
def toPrimitive : Value → Value
  | .arr xs => .str (arrJoin xs)
  | .obj _ => .str "[object Object]"
  | v => v

/-- JS `ToNumber`; `none` is NaN. -/
def toNumber : Value → Option Int
  | .undef => none
  | .null => some 0
  | .bool b => some (if b then 1 else 0)
  | .num n => some n
  | .str s => strToNumber s
  | .arr xs => strToNumber (arrJoin xs)
  | .obj _ => none

/-- Result of the ECMAScript abstract relational comparison: less, not-less,
or undefined (a NaN was involved). -/
inductive CompRes where
  | isLt
  | notLt
  | undefined
deriving DecidableEq

/-- ECMAScript abstract relational comparison `x < y`: if both operands
coerce to strings they compare lexicographically, otherwise both are
coerced to numbers (NaN makes the comparison undefined). -/
def jsLessThan (x y : Value) : CompRes :=
  let px := toPrimitive x
  let py := toPrimitive y
  match px, py with
  | .str a, .str b => if charsLt a.data b.data then .isLt else .notLt
  | px', py' =>
    match toNumber px', toNumber py' with
    | some a, some b => if a < b then .isLt else .notLt
    | _, _ => .undefined

/-- JS `x < y`. -/
def jsLt (x y : Value) : Bool := jsLessThan x y == .isLt

/-- JS `x > y` (comparison with the operands swapped). -/
def jsGt (x y : Value) : Bool := jsLessThan y x == .isLt

/-- JS `x <= y`: true iff `y < x` is definitely false (undefined gives false). -/
def jsLe (x y : Value) : Bool := jsLessThan y x == .notLt

/-- JS `x >= y`: true iff `x < y` is definitely false (undefined gives false). -/
def jsGe (x y : Value) : Bool := jsLessThan x y == .notLt

/-- JS `Array.prototype.includes` (SameValueZero; identical to `===` on the
NaN-free value model). -/
def includesVL (xs : ValueList) (v : Value) : Bool :=
  match xs with
  | .nil => false
  | .cons x rest => strictEq x v || includesVL rest v

def escSeg (c : Char) : String :=
  if c == '"' then "\\\"" else if c == '\\' then "\\\\" else String.singleton c

/-- JSON string literal rendering (quotes and backslashes escaped; control
characters are outside the modelled string alphabet). -/
def strQuote (s : String) : String :=
  "\"" ++ String.join (s.data.map escSeg) ++ "\""

mutual

/-- `JSON.stringify`: `none` models the `undefined` result for an
`undefined` argument; inside arrays `undefined` renders as `null`, inside
objects `undefined`-valued fields are dropped. -/
def jsonStringify : Value → Option String
  | .undef => none
  | .null => some "null"
  | .bool b => some (if b then "true" else "false")
  | .num n => some (intToStr n)
  | .str s => some (strQuote s)
  | .arr xs => some ("[" ++ String.intercalate "," (jsonArrElems xs) ++ "]")
  | .obj fs => some ("\x7b" ++ String.intercalate "," (jsonObjSegs fs) ++ "\x7d")

def jsonArrElems : ValueList → List String
  | .nil => []
  | .cons v rest =>
    (match jsonStringify v with
     | some s => s
     | none => "null") :: jsonArrElems rest

def jsonObjSegs : FieldList → List String
  | .nil => []
  | .cons k v rest =>
    match jsonStringify v with
    | some s => (strQuote k ++ ":" ++ s) :: jsonObjSegs rest
    | none => jsonObjSegs rest

end

/-- `JSON.stringify(a) === JSON.stringify(b)` (used by the deep-equality
fallback; two `undefined` results compare equal). -/
def jsonEq (a b : Value) : Bool :=
  jsonStringify a == jsonStringify b

namespace Query

/-- `Query.handleFieldOperator(docValue, operator, queryValue)` from
src/src/index.js lines 92-139, translated case by case from the switch.
`regexTest` is the host regex collaborator (raw `queryValue`, stringified
`docValue`); `$contains`, `$startsWith` and `$endsWith` coerce both sides
to strings exactly as `String(docValue).includes(queryValue)` etc. do. -/
def handleFieldOperator (regexTest : Value → String → Bool)
    (docValue : Value) (op : String) (queryValue : Value) : Bool :=
  match op with
  | "$eq" => strictEq docValue queryValue
  | "$ne" => !(strictEq docValue queryValue)
  | "$gt" => jsGt docValue queryValue
  | "$gte" => jsGe docValue queryValue
  | "$lt" => jsLt docValue queryValue
  | "$lte" => jsLe docValue queryValue
  | "$in" =>
    (match queryValue with
     | .arr xs => includesVL xs docValue
     | _ => false)
  | "$nin" =>
    (match queryValue with
     | .arr xs => !(includesVL xs docValue)
     | _ => false)
  | "$exists" =>
    if truthy queryValue then !(strictEq docValue .undef) else strictEq docValue .undef
  | "$regex" => regexTest queryValue (toStringJS docValue)
  | "$contains" => strHas (toStringJS docValue) (toStringJS queryValue)
  | "$startsWith" => strBegins (toStringJS docValue) (toStringJS queryValue)
  | "$endsWith" => strEnds (toStringJS docValue) (toStringJS queryValue)
  | _ => true

/-- The loop of `Query.matchNested` returns at the FIRST key that starts
with `$`; keys before it are skipped. -/
def firstOpPair : FieldList → Option (String × Value)
  | .nil => none
  | .cons k v rest => if isOpKey k then some (k, v) else firstOpPair rest

/-- `Query.matchNested(docValue, queryValue)` (src/src/index.js lines
58-68): the result of the first `$`-operator if any, else the
`JSON.stringify` deep-equality fallback. -/
def matchNested (regexTest : Value → String → Bool)
    (docValue : Value) (queryValue : FieldList) : Bool :=
  match firstOpPair queryValue with
  | some kv => handleFieldOperator regexTest docValue kv.1 kv.2
  | none => jsonEq docValue (.obj queryValue)

mutual

/-- `Query.matchOne(doc, query)` (src/src/index.js lines 28-53): iterate the
query's own entries in order; `$`-keys dispatch to `handleOperator`, plain
non-null non-array object values recurse through `matchNested`, everything
else is strict equality against `doc[key]`.  The early `return false` of
the source loop equals the conjunction. -/
def matchOne (regexTest : Value → String → Bool) (doc : Doc) : FieldList → Bool
  | .nil => true
  | .cons k v rest =>
    (if isOpKey k then handleOperator regexTest doc k v
     else
       match v with
       | .obj m => matchNested regexTest (getField doc k) m
       | _ => strictEq (getField doc k) v)
    && matchOne regexTest doc rest

/-- `Query.handleOperator` (src/src/index.js lines 73-87).  `$and`/`$or`
run `every`/`some` over the array of sub-queries (`value.every` throws a
TypeError on a non-array in JS, modelled as `false`); `$not` negates a
recursive match of the single sub-query (a primitive sub-query has no
entries, so the inner match is vacuously true and the negation false,
which the non-object fallback returns directly; `null`/`undefined`
sub-queries throw in JS and array sub-queries match by index entries,
neither of which the claims exercise). -/
def handleOperator (regexTest : Value → String → Bool)
    (doc : Doc) (op : String) (v : Value) : Bool :=
  match op with
  | "$and" =>
    (match v with
     | .arr qs => allMatch regexTest doc qs
     | _ => false)
  | "$or" =>
    (match v with
     | .arr qs => anyMatch regexTest doc qs
     | _ => false)
  | "$not" =>
    (match v with
     | .obj m => !(matchOne regexTest doc m)
     | _ => false)
  | _ => true

/-- `value.every(q => this.matchOne(doc, q))`: an object element recurses,
a primitive element has no entries and matches vacuously. -/
def allMatch (regexTest : Value → String → Bool) (doc : Doc) : ValueList → Bool
  | .nil => true
  | .cons (.obj m) qs => matchOne regexTest doc m && allMatch regexTest doc qs
  | .cons _ qs => allMatch regexTest doc qs

/-- `value.some(q => this.matchOne(doc, q))`: a primitive element matches
vacuously, short-circuiting the disjunction to true. -/
def anyMatch (regexTest : Value → String → Bool) (doc : Doc) : ValueList → Bool
  | .nil => false
  | .cons (.obj m) qs => matchOne regexTest doc m || anyMatch regexTest doc qs
  | .cons _ _ => true

end

/-- `Query.match(collection, query)` (renamed: `match` is reserved). -/
def matchList (regexTest : Value → String → Bool)
    (coll : List Doc) (query : FieldList) : List Doc :=
  coll.filter (fun doc => matchOne regexTest doc query)

end Query

/-- The mutable state of the fluent chain builder (constructor of `Chain`
in src/unnamed/part_001 lines 6-17).  The backing `data`/`collectionName`
pair is passed to each terminal as an explicit collection argument, and the
persistence collaborator `saveFn` is modelled by the `saveCalls` counter of
`MutResult`.  The constructor also initialises an unused `conditions`
array, which no method ever reads; it is omitted. -/
structure Chain where
  query : FieldList
  sortConfig : Option (String × String)
  limitCount : Option Int
  skipCount : Int
  currentField : Option String
  isOrCondition : Bool
deriving DecidableEq

namespace Chain

/-- Fresh chain state as built by the constructor. -/
def init : Chain :=
  { query := .nil, sortConfig := none, limitCount := none,
    skipCount := 0, currentField := none, isOrCondition := false }

/-- `where(field)` (renamed: `where` is reserved). -/
def where' (ch : Chain) (field : String) : Chain :=
  { ch with currentField := some field }

/-- `select(field)`, alias of `where`. -/
def select (ch : Chain) (field : String) : Chain :=
  ch.where' field

/-- `and(field)`. -/
def and (ch : Chain) (field : String) : Chain :=
  { ch with currentField := some field }

/-- `or(field)`: sets the cursor and a flag that no other method reads. -/
def or (ch : Chain) (field : String) : Chain :=
  { ch with currentField := some field, isOrCondition := true }

/-- Error message of the `addCondition` throw. -/
def missingFieldMsg : String :=
  "No field specified. Use where() or and() first."

/-- `addCondition(operator, value)` (src/unnamed/part_001 lines 146-164).
The JS method throws before touching any state when no field is selected
(`!this.currentField`, which is also true for the falsy empty-string
field); the error is returned alongside the untouched state.  `$eq`
overwrites the field's condition with the bare literal; any other operator
merges into (or resets to) the field's operator mapping.  When a prior
`eq` left an array literal, JS would attach a named property to the array;
no chain of the modelled operator methods produces that state from a fresh
chain, and it is left as the identity here. -/
def addCondition (ch : Chain) (op : String) (value : Value) : Chain × Option String :=
  match ch.currentField with
  | none => (ch, some missingFieldMsg)
  | some f =>
    if f == "" then (ch, some missingFieldMsg)
    else
      let q1 := if truthy (getField ch.query f) then ch.query
                else ch.query.setKey f (.obj .nil)
      if op == "$eq" then ({ ch with query := q1.setKey f value }, none)
      else
        let q2 := match getField q1 f with
          | .obj _ => q1
          | .arr _ => q1
          | _ => q1.setKey f (.obj .nil)
        let q3 := match getField q2 f with
          | .obj m => q2.setKey f (.obj (m.setKey op value))
          | _ => q2
        ({ ch with query := q3 }, none)

def eq (ch : Chain) (value : Value) : Chain × Option String :=
  ch.addCondition "$eq" value

def ne (ch : Chain) (value : Value) : Chain × Option String :=
  ch.addCondition "$ne" value

def gt (ch : Chain) (value : Value) : Chain × Option String :=
  ch.addCondition "$gt" value

def gte (ch : Chain) (value : Value) : Chain × Option String :=
  ch.addCondition "$gte" value

def lt (ch : Chain) (value : Value) : Chain × Option String :=
  ch.addCondition "$lt" value

def lte (ch : Chain) (value : Value) : Chain × Option String :=
  ch.addCondition "$lte" value

def contains (ch : Chain) (value : Value) : Chain × Option String :=
  ch.addCondition "$contains" value

def startsWith (ch : Chain) (value : Value) : Chain × Option String :=
  ch.addCondition "$startsWith" value

def endsWith (ch : Chain) (value : Value) : Chain × Option String :=
  ch.addCondition "$endsWith" value

/-- `matches(regex)` (renamed: `matches` is reserved). -/
def matches' (ch : Chain) (regex : Value) : Chain × Option String :=
  ch.addCondition "$regex" regex

/-- `in(values)` (renamed: `in` is reserved). -/
def in' (ch : Chain) (values : Value) : Chain × Option String :=
  ch.addCondition "$in" values

def notIn (ch : Chain) (values : Value) : Chain × Option String :=
  ch.addCondition "$nin" values

/-- `exists(value = true)` (renamed: `exists` is reserved); the source
defaults the operand to `true`. -/
def exists' (ch : Chain) (value : Value) : Chain × Option String :=
  ch.addCondition "$exists" value

/-- `sort(field, direction = 'asc')`: a single sort spec; later calls
replace it. -/
def sort (ch : Chain) (field : String) (direction : String) : Chain :=
  { ch with sortConfig := some (field, direction) }

def orderBy (ch : Chain) (field : String) (direction : String) : Chain :=
  ch.sort field direction

def sortDesc (ch : Chain) (field : String) : Chain :=
  ch.sort field "desc"

def sortAsc (ch : Chain) (field : String) : Chain :=
  ch.sort field "asc"

def limit (ch : Chain) (count : Int) : Chain :=
  { ch with limitCount := some count }

def take (ch : Chain) (count : Int) : Chain :=
  ch.limit count

def skip (ch : Chain) (count : Int) : Chain :=
  { ch with skipCount := count }

def offset (ch : Chain) (count : Int) : Chain :=
  ch.skip count

/-- `Chain.evaluateOperator(docValue, operator, queryValue)`
(src/unnamed/part_001 lines 281-313); the switch is character-for-character
the same as `Query.handleFieldOperator`. -/
def evaluateOperator (regexTest : Value → String → Bool)
    (docValue : Value) (op : String) (queryValue : Value) : Bool :=
  match op with
  | "$eq" => strictEq docValue queryValue
  | "$ne" => !(strictEq docValue queryValue)
  | "$gt" => jsGt docValue queryValue
  | "$gte" => jsGe docValue queryValue
  | "$lt" => jsLt docValue queryValue
  | "$lte" => jsLe docValue queryValue
  | "$in" =>
    (match queryValue with
     | .arr xs => includesVL xs docValue
     | _ => false)
  | "$nin" =>
    (match queryValue with
     | .arr xs => !(includesVL xs docValue)
     | _ => false)
  | "$exists" =>
    if truthy queryValue then !(strictEq docValue .undef) else strictEq docValue .undef
  | "$regex" => regexTest queryValue (toStringJS docValue)
  | "$contains" => strHas (toStringJS docValue) (toStringJS queryValue)
  | "$startsWith" => strBegins (toStringJS docValue) (toStringJS queryValue)
  | "$endsWith" => strEnds (toStringJS docValue) (toStringJS queryValue)
  | _ => true

/-- The inner loop of `matchDocument`: every `(operator, value)` entry of
the condition object is evaluated and conjoined (early `return false`
equals the conjunction). -/
def evalPairs (regexTest : Value → String → Bool)
    (docValue : Value) : FieldList → Bool
  | .nil => true
  | .cons op v rest =>
    evaluateOperator regexTest docValue op v && evalPairs regexTest docValue rest

/-- `Object.entries` of an array: index keys (as decimal strings) paired
with the elements, in order. -/
def idxEntries (i : Nat) : ValueList → FieldList
  | .nil => .nil
  | .cons v rest => .cons (toString i) v (idxEntries (i + 1) rest)

/-- `Chain.matchDocument(doc)` (src/unnamed/part_001 lines 259-278), with
`this.query` passed explicitly.  A non-object (or null) condition is a
strict-equality test; an object condition conjoins `evaluateOperator` over
ALL of its entries; an array condition (typeof 'object' in JS) iterates
its index entries, whose keys hit the permissive default. -/
def matchDocument (regexTest : Value → String → Bool)
    (query : FieldList) (doc : Doc) : Bool :=
  match query with
  | .nil => true
  | .cons field condition rest =>
    (match condition with
     | .obj ps => evalPairs regexTest (getField doc field) ps
     | .arr xs => evalPairs regexTest (getField doc field) (idxEntries 0 xs)
     | c => strictEq (getField doc field) c)
    && matchDocument regexTest rest doc

/-- `Chain.executeQuery()` (src/unnamed/part_001 lines 248-256): the whole
collection (a fresh `[...]` copy, equal as a list) for an empty accumulated
query, else the filter by `matchDocument`. -/
def executeQuery (regexTest : Value → String → Bool)
    (ch : Chain) (coll : List Doc) : List Doc :=
  if ch.query.isEmpty then coll
  else coll.filter (fun doc => matchDocument regexTest ch.query doc)

/-- The comparator built in `applySorting`: `(a, b) => aVal > bVal ? 1 :
aVal < bVal ? -1 : 0`, scaled by the direction modifier. -/
def compareDocs (field direction : String) (a b : Doc) : Int :=
  let modifier : Int := if direction == "desc" then -1 else 1
  let aVal := getField a field
  let bVal := getField b field
  if jsGt aVal bVal then 1 * modifier
  else if jsLt aVal bVal then -1 * modifier
  else 0

/-- Insert `d` after every element `e` with `le e d`; the building block of
the stable sort below. -/
def insertSorted (le : Doc → Doc → Bool) (d : Doc) : List Doc → List Doc
  | [] => [d]
  | e :: rest => if le e d then e :: insertSorted le d rest else d :: e :: rest

def stableSortAux (le : Doc → Doc → Bool) (acc : List Doc) : List Doc → List Doc
  | [] => acc
  | d :: rest => stableSortAux le (insertSorted le d acc) rest

/-- Stable comparator sort: elements are inserted left to right, each after
its `le`-predecessors, so ties keep their original relative order.  This
models `Array.prototype.sort`, which ECMAScript requires to be stable; for
a consistent comparator the result is the unique stable sorted order. -/
def stableSort (le : Doc → Doc → Bool) (xs : List Doc) : List Doc :=
  stableSortAux le [] xs

/-- `Chain.applySorting(results)` (src/unnamed/part_001 lines 316-328). -/
def applySorting (ch : Chain) (results : List Doc) : List Doc :=
  match ch.sortConfig with
  | some fd => stableSort (fun a b => decide (compareDocs fd.1 fd.2 a b ≤ 0)) results
  | none => results

/-- `results.slice(0, n)`: a negative bound counts from the end
(`Int.toNat` clamps the negative sum at 0 exactly as `slice` does). -/
def jsSliceTo (xs : List Doc) (n : Int) : List Doc :=
  if n < 0 then xs.take ((xs.length : Int) + n).toNat else xs.take n.toNat

/-- `Chain.get()` (src/unnamed/part_001 lines 204-223): filter by the
accumulated query, then sort if a sort spec is set, then slice off the
skip count if positive, then slice to the limit if one is set. -/
def get (regexTest : Value → String → Bool)
    (ch : Chain) (coll : List Doc) : List Doc :=
  let results := executeQuery regexTest ch coll
  let results := if ch.sortConfig.isSome then ch.applySorting results else results
  let results := if ch.skipCount > 0 then results.drop ch.skipCount.toNat else results
  match ch.limitCount with
  | some l => jsSliceTo results l
  | none => results

/-- `Chain.first()` (src/unnamed/part_001 lines 226-229): the source calls
`this.limit(1)`, MUTATING the chain, then `get()`; `results[0] || null`
becomes `head?`.  The mutated chain is returned alongside the result. -/
def first (regexTest : Value → String → Bool)
    (ch : Chain) (coll : List Doc) : Option Doc × Chain :=
  let ch' := ch.limit 1
  ((get regexTest ch' coll).head?, ch')

/-- `Chain.last()`. -/
def last (regexTest : Value → String → Bool)
    (ch : Chain) (coll : List Doc) : Option Doc :=
  (get regexTest ch coll).getLast?

/-- `Chain.count()`. -/
def count (regexTest : Value → String → Bool)
    (ch : Chain) (coll : List Doc) : Nat :=
  (get regexTest ch coll).length

end Chain

/-- Outcome of a mutating terminal: the collection after the call, the
count the call returns, and how many times the persistence collaborator
(`saveFn` / `autoSave`-triggered `save`) was invoked. -/
structure MutResult where
  collection : List Doc
  count : Nat
  saveCalls : Nat
deriving DecidableEq

/-- `collection.indexOf(doc)`: index of the first occurrence, `none` for
-1.  JS compares references; the model compares structurally, which agrees
whenever the sought document IS an element of the collection and no
structural duplicate precedes it. -/
def indexOfDoc (coll : List Doc) (d : Doc) : Option Nat :=
  match coll with
  | [] => none
  | e :: rest => if e == d then some 0 else (indexOfDoc rest d).map (· + 1)

/-- `Object.assign(target, updates)`: shallow merge, existing keys keep
their position, new keys are appended in update order. -/
def objAssign : Doc → Doc → Doc
  | t, .nil => t
  | t, .cons k v rest => objAssign (t.setKey k v) rest

/-- `results.includes(doc)` over documents (SameValueZero is reference
equality on objects; modelled structurally, see `indexOfDoc`). -/
def docIncludes (xs : List Doc) (d : Doc) : Bool :=
  xs.any (fun r => r == d)

/-- The `for (const doc of results)` loop of `Chain.update`: locate each
result in the live collection and `Object.assign` the patch onto it,
counting the hits. -/
def updateLoop (patch : Doc) : List Doc → List Doc → List Doc × Nat
  | coll, [] => (coll, 0)
  | coll, r :: rs =>
    match indexOfDoc coll r with
    | some i =>
      let out := updateLoop patch (coll.set i (objAssign (coll.getD i .nil) patch)) rs
      (out.1, out.2 + 1)
    | none => updateLoop patch coll rs

/-- `Chain.update(updates)` (src/unnamed/part_001 lines 331-349): the
result set is materialised fresh by `get()`, each result is patched in
place in the backing collection, and `saveFn` is awaited once iff at least
one document was updated (`this.saveFn` is assumed present, as the `magic`
entry point always supplies it). -/
def Chain.update (regexTest : Value → String → Bool)
    (ch : Chain) (coll : List Doc) (patch : Doc) : MutResult :=
  let results := Chain.get regexTest ch coll
  let out := updateLoop patch coll results
  ⟨out.1, out.2, if out.2 > 0 then 1 else 0⟩

/-- `Chain.delete()` (src/unnamed/part_001 lines 370-389): the source
splices out, scanning from the last index down, every collection entry
included in the freshly materialised result set; splicing from the end
never shifts an unvisited index, so the loop equals this element-wise
filter.  `saveFn` is awaited once iff at least one document was removed. -/
def Chain.delete (regexTest : Value → String → Bool)
    (ch : Chain) (coll : List Doc) : MutResult :=
  let results := Chain.get regexTest ch coll
  let coll' := coll.filter (fun d => !docIncludes results d)
  ⟨coll', coll.length - coll'.length, if coll.length - coll'.length > 0 then 1 else 0⟩

namespace JSONKit

/-- `JSONKit.find(collectionName, query)` (src/src/database.js lines
113-121): the live collection when the query has no keys, else
`Query.match`. -/
def find (regexTest : Value → String → Bool)
    (coll : List Doc) (query : FieldList) : List Doc :=
  if query.isEmpty then coll else Query.matchList regexTest coll query

/-- `JSONKit.update(collectionName, query, updates)` (src/src/database.js
lines 134-150): each index is visited once, so the loop equals a map with
a filter-length count; `save` runs iff `autoSave` and at least one update. -/
def update (regexTest : Value → String → Bool) (autoSave : Bool)
    (coll : List Doc) (query : FieldList) (updates : Doc) : MutResult :=
  let n := (coll.filter (fun d => Query.matchOne regexTest d query)).length
  let coll' := coll.map (fun d =>
    if Query.matchOne regexTest d query then objAssign d updates else d)
  ⟨coll', n, if autoSave && n > 0 then 1 else 0⟩

/-- `JSONKit.delete(collectionName, query)` (src/src/database.js lines
176-191): keep the non-matching documents, count the difference, save iff
`autoSave` and something was deleted. -/
def delete (regexTest : Value → String → Bool) (autoSave : Bool)
    (coll : List Doc) (query : FieldList) : MutResult :=
  let coll' := coll.filter (fun d => !(Query.matchOne regexTest d query))
  ⟨coll', coll.length - coll'.length,
    if autoSave && (coll.length - coll'.length) > 0 then 1 else 0⟩

end JSONKit

/-- Concrete stand-in for the host regex collaborator used by closed
witnesses and counterexamples (no claim depends on its behaviour). -/
def noRegex : Value → String → Bool :=
  fun _ _ => false

/-! ### Shared lemmas -/

theorem handleFieldOperator_eq_evaluateOperator
    (rt : Value → String → Bool) (dv : Value) (op : String) (qv : Value) :
    Query.handleFieldOperator rt dv op qv = Chain.evaluateOperator rt dv op qv :=
  rfl

theorem isOpKey_and : isOpKey "$and" = true := by decide

theorem isOpKey_or : isOpKey "$or" = true := by decide

theorem isOpKey_not : isOpKey "$not" = true := by decide

/-! ### C3: boolean combinators -/

/-- C3: for every document `D` and sub-queries `Q1`, `Q2`, `Q`,
`matches(D, {"$and": [Q1, Q2]})` equals `matches(D, Q1) && matches(D, Q2)`,
`matches(D, {"$or": [Q1, Q2]})` equals `matches(D, Q1) || matches(D, Q2)`,
and `matches(D, {"$not": Q})` equals `!matches(D, Q)` (Query.handleOperator,
src/src/index.js lines 73-87). -/
theorem claim3_boolean_combinators (rt : Value → String → Bool)
    (doc : Doc) (q1 q2 q : FieldList) :
    (Query.matchOne rt doc
        (.cons "$and" (.arr (.cons (.obj q1) (.cons (.obj q2) .nil))) .nil)
      = (Query.matchOne rt doc q1 && Query.matchOne rt doc q2))
  ∧ (Query.matchOne rt doc
        (.cons "$or" (.arr (.cons (.obj q1) (.cons (.obj q2) .nil))) .nil)
      = (Query.matchOne rt doc q1 || Query.matchOne rt doc q2))
  ∧ (Query.matchOne rt doc (.cons "$not" (.obj q) .nil)
      = !Query.matchOne rt doc q) := by
  refine ⟨?_, ?_, ?_⟩ <;>
    simp [Query.matchOne, Query.handleOperator, Query.allMatch, Query.anyMatch,
      isOpKey_and, isOpKey_or, isOpKey_not]

/-! ### C4: cross-type ordering comparisons -/

/-- C4 counterexample: the claim says an ordering comparison between values
of different types is always false, but the code inherits JS coercion:
`"10" > 5` is true (the string coerces to the number 10), so
`evaluateOperator("10", "$gt", 5)` and `handleFieldOperator("10", "$gt", 5)`
both return true. -/
theorem claim4_counterexample :
    Chain.evaluateOperator noRegex (.str "10") "$gt" (.num 5) = true
  ∧ Query.handleFieldOperator noRegex (.str "10") "$gt" (.num 5) = true := by
  decide

theorem foldl_digitStep_none : ∀ cs : List Char, cs.foldl digitStep none = none := by
  intro cs
  induction cs with
  | nil => rfl
  | cons c rest ih => simpa [digitStep] using ih

theorem foldl_digitStep_all : ∀ (cs : List Char) (a m : Nat),
    cs.foldl digitStep (some a) = some m → cs.all Char.isDigit = true := by
  intro cs
  induction cs with
  | nil => intro a m _; rfl
  | cons c rest ih =>
    intro a m h
    simp only [List.foldl_cons] at h
    by_cases hc : c.isDigit
    · simp only [digitStep, hc, if_pos] at h
      simp [List.all_cons, hc, ih _ _ h]
    · simp only [digitStep, hc, if_false, Bool.false_eq_true] at h
      rw [foldl_digitStep_none] at h
      simp at h

theorem digitsToNat_all (cs : List Char) (m : Nat) (h : digitsToNat cs = some m) :
    cs.all Char.isDigit = true :=
  foldl_digitStep_all cs 0 m h

theorem takeWhile_all (p : Char → Bool) : ∀ cs : List Char, cs.all p = true →
    cs.takeWhile p = cs ∧ cs.dropWhile p = [] := by
  intro cs
  induction cs with
  | nil => intro _; exact ⟨rfl, rfl⟩
  | cons c rest ih =>
    intro h
    simp only [List.all_cons, Bool.and_eq_true] at h
    exact ⟨by simp [List.takeWhile_cons, h.1, (ih h.2).1],
      by simp [List.dropWhile_cons, h.1, (ih h.2).2]⟩

/-- An optionally empty run of decimal digits headed by a digit is a
`StrUnsignedDecimalLiteral` (its integer part is the whole string). -/
theorem jsUnsignedDecimal_digits (c : Char) (rest : List Char)
    (h : (c :: rest).all Char.isDigit = true) :
    jsUnsignedDecimal (c :: rest) = true := by
  obtain ⟨ht, hd⟩ := takeWhile_all Char.isDigit (c :: rest) h
  simp [jsUnsignedDecimal, ht, hd, jsExponent]

/-- Every trimmed string the integer parser accepts matches the numeric
grammar, so a grammar rejection implies a parser rejection. -/
theorem strToNumberAux_some_numeric : ∀ (cs : List Char) (n : Int),
    strToNumberAux cs = some n → jsNumericStrAux cs = true := by
  intro cs n h
  match cs with
  | [] => rfl
  | c :: rest =>
    by_cases hm : c = '-'
    · subst hm
      rcases rest with _ | ⟨r, rest2⟩
      · simp [strToNumberAux] at h
      · rcases hd2 : digitsToNat (r :: rest2) with _ | m
        · simp [strToNumberAux, hd2] at h
        · have hall := digitsToNat_all _ _ hd2
          simp [jsNumericStrAux, jsUnsignedDecimal_digits r rest2 hall]
    · by_cases hp : c = '+'
      · subst hp
        rcases rest with _ | ⟨r, rest2⟩
        · simp [strToNumberAux] at h
        · rcases hd2 : digitsToNat (r :: rest2) with _ | m
          · simp [strToNumberAux, hd2] at h
          · have hall := digitsToNat_all _ _ hd2
            simp [jsNumericStrAux, jsUnsignedDecimal_digits r rest2 hall]
      · rcases hd2 : digitsToNat (c :: rest) with _ | m
        · simp [strToNumberAux, if_neg hm, if_neg hp, hd2] at h
        · have hall := digitsToNat_all _ _ hd2
          simp [jsNumericStrAux, if_neg hm, if_neg hp,
            jsUnsignedDecimal_digits c rest hall]

/-- A string outside the `StringNumericLiteral` grammar (JS NaN) is also
rejected by the model's integer parser, so the comparison model treats it
as NaN exactly as the host does. -/
theorem strToNumber_none_of_not_numeric (s : String)
    (h : jsNumericStr s = false) : strToNumber s = none := by
  unfold strToNumber
  rcases hv : strToNumberAux (jsTrim s) with _ | n
  · rfl
  · have ht := strToNumberAux_some_numeric (jsTrim s) n hv
    unfold jsNumericStr at h
    rw [ht] at h
    simp at h

/-- C4 amended: cross-type ordering comparisons follow the host's coercing
relational comparison rather than being always false; in particular a
string outside the ECMAScript `StringNumericLiteral` grammar — exactly the
strings `ToNumber` sends to NaN — compared against a number yields false
for all four ordering operators in both evaluators and in both operand
orders (a numeric string such as "10" instead compares numerically, as the
counterexample shows). -/
theorem claim4_amended_cross_type (rt : Value → String → Bool)
    (s : String) (n : Int) (h : jsNumericStr s = false) :
    (Chain.evaluateOperator rt (.str s) "$gt" (.num n) = false
      ∧ Chain.evaluateOperator rt (.str s) "$gte" (.num n) = false
      ∧ Chain.evaluateOperator rt (.str s) "$lt" (.num n) = false
      ∧ Chain.evaluateOperator rt (.str s) "$lte" (.num n) = false)
  ∧ (Chain.evaluateOperator rt (.num n) "$gt" (.str s) = false
      ∧ Chain.evaluateOperator rt (.num n) "$gte" (.str s) = false
      ∧ Chain.evaluateOperator rt (.num n) "$lt" (.str s) = false
      ∧ Chain.evaluateOperator rt (.num n) "$lte" (.str s) = false)
  ∧ (Query.handleFieldOperator rt (.str s) "$gt" (.num n) = false
      ∧ Query.handleFieldOperator rt (.str s) "$gte" (.num n) = false
      ∧ Query.handleFieldOperator rt (.str s) "$lt" (.num n) = false
      ∧ Query.handleFieldOperator rt (.str s) "$lte" (.num n) = false)
  ∧ (Query.handleFieldOperator rt (.num n) "$gt" (.str s) = false
      ∧ Query.handleFieldOperator rt (.num n) "$gte" (.str s) = false
      ∧ Query.handleFieldOperator rt (.num n) "$lt" (.str s) = false
      ∧ Query.handleFieldOperator rt (.num n) "$lte" (.str s) = false) := by
  have hn : strToNumber s = none := strToNumber_none_of_not_numeric s h
  refine ⟨⟨?_, ?_, ?_, ?_⟩, ⟨?_, ?_, ?_, ?_⟩, ⟨?_, ?_, ?_, ?_⟩, ⟨?_, ?_, ?_, ?_⟩⟩ <;>
    simp [Chain.evaluateOperator, Query.handleFieldOperator,
      jsGt, jsGe, jsLt, jsLe, jsLessThan, toPrimitive, toNumber, hn]

/-- C4 witness: "abc" is outside the numeric grammar (JS NaN) and all four
ordering operators between it and 0 are false; the grammar classifier
accepts the JS-coercible forms "1.5", "1e3", "0x10" and "Infinity", so the
theorem says nothing about them. -/
theorem claim4_witness :
    jsNumericStr "abc" = false
  ∧ jsNumericStr "1.5" = true
  ∧ jsNumericStr "1e3" = true
  ∧ jsNumericStr "0x10" = true
  ∧ jsNumericStr "Infinity" = true
  ∧ Chain.evaluateOperator noRegex (.str "abc") "$gt" (.num 0) = false :=
  ⟨by decide, by decide, by decide, by decide, by decide,
    (claim4_amended_cross_type noRegex "abc" 0 (by decide)).1.1⟩

/-! ### C5: unknown operators are permissive -/

/-- The operator keys the switch in both evaluators recognises. -/
def recognizedOp (op : String) : Bool :=
  match op with
  | "$eq" | "$ne" | "$gt" | "$gte" | "$lt" | "$lte" | "$in" | "$nin"
  | "$exists" | "$regex" | "$contains" | "$startsWith" | "$endsWith" => true
  | _ => false

/-- Every key of the condition starts with `$` and is unrecognised. -/
def opsUnknown : FieldList → Bool
  | .nil => true
  | .cons k _ rest => isOpKey k && !recognizedOp k && opsUnknown rest

theorem evaluateOperator_unknown (rt : Value → String → Bool)
    (dv : Value) (op : String) (v : Value) (h : recognizedOp op = false) :
    Chain.evaluateOperator rt dv op v = true := by
  unfold Chain.evaluateOperator
  split <;> simp_all [recognizedOp]

/-- Structural induction along the spine of a `FieldList` (the mutual
recursor has several motives, so the plain `induction` tactic cannot be
used directly). -/
theorem fieldSpineInd {motive : FieldList → Prop} (hnil : motive .nil)
    (hcons : ∀ k v rest, motive rest → motive (.cons k v rest)) :
    ∀ fs, motive fs
  | .nil => hnil
  | .cons k v rest => hcons k v rest (fieldSpineInd hnil hcons rest)

theorem evalPairs_unknown (rt : Value → String → Bool)
    (dv : Value) (ps : FieldList) (h : opsUnknown ps = true) :
    Chain.evalPairs rt dv ps = true := by
  induction ps using fieldSpineInd with
  | hnil => rfl
  | hcons k v rest ih =>
    simp only [opsUnknown, Bool.and_eq_true, Bool.not_eq_true'] at h
    simp [Chain.evalPairs, evaluateOperator_unknown rt dv k v h.1.2, ih h.2]

/-- C5: an operator key outside the recognised set evaluates to true in
both predicate evaluators (the switches' permissive default), and a field
condition all of whose keys are unknown `$`-operators never excludes a
document: the chain matcher conjoins only `true`s, and the plain matcher
returns the first operator's permissive result. -/
theorem claim5_unknown_operator_permissive (rt : Value → String → Bool)
    (dv v : Value) (op : String) (doc : Doc) (f k0 : String) (v0 : Value)
    (M : FieldList)
    (hop : recognizedOp op = false)
    (hf : isOpKey f = false)
    (hM : opsUnknown (.cons k0 v0 M) = true) :
    Chain.evaluateOperator rt dv op v = true
  ∧ Query.handleFieldOperator rt dv op v = true
  ∧ Chain.matchDocument rt (.cons f (.obj (.cons k0 v0 M)) .nil) doc = true
  ∧ Query.matchOne rt doc (.cons f (.obj (.cons k0 v0 M)) .nil) = true := by
  have hk0 : isOpKey k0 = true := by
    simp only [opsUnknown, Bool.and_eq_true] at hM
    exact hM.1.1
  have hk0u : recognizedOp k0 = false := by
    simp only [opsUnknown, Bool.and_eq_true, Bool.not_eq_true'] at hM
    exact hM.1.2
  refine ⟨evaluateOperator_unknown rt dv op v hop,
    (handleFieldOperator_eq_evaluateOperator rt dv op v).trans
      (evaluateOperator_unknown rt dv op v hop),
    ?_, ?_⟩
  · simp [Chain.matchDocument, evalPairs_unknown rt _ _ hM]
  · simp [Query.matchOne, hf, Query.matchNested, Query.firstOpPair, hk0,
      handleFieldOperator_eq_evaluateOperator,
      evaluateOperator_unknown rt _ k0 v0 hk0u]

/-- C5 witness: the spec's own example key `$xyz` at a concrete document. -/
theorem claim5_witness :
    recognizedOp "$xyz" = false
  ∧ isOpKey "age" = false
  ∧ opsUnknown (.cons "$xyz" (.num 1) .nil) = true
  ∧ Query.matchOne noRegex (.cons "age" (.num 5) .nil)
      (.cons "age" (.obj (.cons "$xyz" (.num 1) .nil)) .nil) = true :=
  ⟨by decide, by decide, by decide,
    (claim5_unknown_operator_permissive noRegex (.num 5) (.num 1) "$xyz"
      (.cons "age" (.num 5) .nil) "age" "$xyz" (.num 1) .nil
      (by decide) (by decide) (by decide)).2.2.2⟩

/-! ### C9: operator methods with no selected field -/

/-- C9: with no field selected (a fresh chain or any chain whose
`currentField` is unset), every one of the 13 operator methods reports the
`MissingFieldError` immediately and leaves the accumulated state exactly
as it was — the source throws before touching `this.query`
(src/unnamed/part_001 lines 146-164). -/
theorem claim9_missing_field_error (ch : Chain) (v : Value)
    (h : ch.currentField = none) :
    ch.eq v = (ch, some Chain.missingFieldMsg)
  ∧ ch.ne v = (ch, some Chain.missingFieldMsg)
  ∧ ch.gt v = (ch, some Chain.missingFieldMsg)
  ∧ ch.gte v = (ch, some Chain.missingFieldMsg)
  ∧ ch.lt v = (ch, some Chain.missingFieldMsg)
  ∧ ch.lte v = (ch, some Chain.missingFieldMsg)
  ∧ ch.in' v = (ch, some Chain.missingFieldMsg)
  ∧ ch.notIn v = (ch, some Chain.missingFieldMsg)
  ∧ ch.exists' v = (ch, some Chain.missingFieldMsg)
  ∧ ch.contains v = (ch, some Chain.missingFieldMsg)
  ∧ ch.startsWith v = (ch, some Chain.missingFieldMsg)
  ∧ ch.endsWith v = (ch, some Chain.missingFieldMsg)
  ∧ ch.matches' v = (ch, some Chain.missingFieldMsg) := by
  refine ⟨?_, ?_, ?_, ?_, ?_, ?_, ?_, ?_, ?_, ?_, ?_, ?_, ?_⟩ <;>
    simp [Chain.eq, Chain.ne, Chain.gt, Chain.gte, Chain.lt, Chain.lte,
      Chain.in', Chain.notIn, Chain.exists', Chain.contains, Chain.startsWith,
      Chain.endsWith, Chain.matches', Chain.addCondition, h]

/-- C9 witness: a fresh chain rejects `eq(1)` without changing state. -/
theorem claim9_witness :
    Chain.init.currentField = none
  ∧ Chain.init.eq (.num 1) = (Chain.init, some Chain.missingFieldMsg) :=
  ⟨by decide, (claim9_missing_field_error Chain.init (.num 1) (by decide)).1⟩

/-! ### C10: first() permanently sets the chain's limit -/

theorem updateLoop_count_le (patch : Doc) :
    ∀ (rs : List Doc) (coll : List Doc), (updateLoop patch coll rs).2 ≤ rs.length := by
  intro rs
  induction rs with
  | nil => intro coll; simp [updateLoop]
  | cons r rs ih =>
    intro coll
    simp only [updateLoop]
    cases indexOfDoc coll r with
    | none => exact le_trans (ih coll) (Nat.le_succ _)
    | some i => simpa [updateLoop] using Nat.succ_le_succ (ih _)

theorem length_jsSliceTo_one (xs : List Doc) :
    (Chain.jsSliceTo xs 1).length ≤ 1 := by
  simp [Chain.jsSliceTo]

/-- C10: `first()` invokes `limit(1)` on the chain itself, so the chain it
leaves behind has `limitCount = 1` permanently; every later terminal on
that chain materialises at most one document — `get` returns at most one
element, `count` is at most 1, and `update` patches (and therefore counts)
at most one document. -/
theorem claim10_first_sets_limit (rt : Value → String → Bool)
    (ch : Chain) (coll : List Doc) :
    ((Chain.first rt ch coll).2.limitCount = some 1)
  ∧ (∀ coll2 : List Doc, (Chain.get rt (Chain.first rt ch coll).2 coll2).length ≤ 1)
  ∧ (∀ coll2 : List Doc, Chain.count rt (Chain.first rt ch coll).2 coll2 ≤ 1)
  ∧ (∀ (coll2 : List Doc) (patch : Doc),
      (Chain.update rt (Chain.first rt ch coll).2 coll2 patch).count ≤ 1) := by
  have hget : ∀ coll2 : List Doc,
      (Chain.get rt (Chain.first rt ch coll).2 coll2).length ≤ 1 := by
    intro coll2
    simp only [Chain.first, Chain.limit, Chain.get]
    exact length_jsSliceTo_one _
  refine ⟨rfl, hget, fun coll2 => hget coll2, ?_⟩
  intro coll2 patch
  simp only [Chain.update]
  exact le_trans (updateLoop_count_le patch _ coll2) (hget coll2)

/-! ### C2: several operators in one field condition -/

theorem evalPairs_append (rt : Value → String → Bool)
    (dv : Value) (ps qs : FieldList) :
    Chain.evalPairs rt dv (ps.append qs)
      = (Chain.evalPairs rt dv ps && Chain.evalPairs rt dv qs) := by
  induction ps using fieldSpineInd with
  | hnil => simp [FieldList.append, Chain.evalPairs]
  | hcons k v rest ih => simp [FieldList.append, Chain.evalPairs, ih, Bool.and_assoc]

/-- C2 counterexample: the claim says matching `{f: {"$gt": 1, "$lt": 2}}`
ANDs every (operator, operand) pair, which is false for the document
`{f: 5}` (5 < 2 fails); yet `Query.matchOne` returns true, because
`matchNested` returns the FIRST operator's result and skips the rest.
(`Chain.matchDocument` does AND all the pairs and returns false.) -/
theorem claim2_counterexample :
    Query.matchOne noRegex (.cons "f" (.num 5) .nil)
      (.cons "f" (.obj (.cons "$gt" (.num 1) (.cons "$lt" (.num 2) .nil))) .nil) = true
  ∧ Chain.evaluateOperator noRegex (.num 5) "$lt" (.num 2) = false
  ∧ Chain.matchDocument noRegex
      (.cons "f" (.obj (.cons "$gt" (.num 1) (.cons "$lt" (.num 2) .nil))) .nil)
      (.cons "f" (.num 5) .nil) = false := by
  decide

/-- C2 amended: only the chain evaluation path ANDs every (operator,
operand) pair of an operator mapping — splitting the condition splits the
conjunction; the plain path (`Query.matchNested`) instead returns the
result of the FIRST `$`-prefixed pair and ignores every pair after it. -/
theorem claim2_amended_operator_pairs (rt : Value → String → Bool)
    (dv : Value) (k : String) (v : Value) (rest : FieldList)
    (doc : Doc) (f : String) (ps qs : FieldList)
    (hk : isOpKey k = true) :
    Query.matchNested rt dv (.cons k v rest) = Query.handleFieldOperator rt dv k v
  ∧ Chain.matchDocument rt (.cons f (.obj (ps.append qs)) .nil) doc
      = (Chain.matchDocument rt (.cons f (.obj ps) .nil) doc
         && Chain.matchDocument rt (.cons f (.obj qs) .nil) doc) := by
  constructor
  · simp [Query.matchNested, Query.firstOpPair, hk]
  · simp [Chain.matchDocument, evalPairs_append]

/-- C2 witness: at `{f: 5}` against `{"$gt": 1, "$lt": 2}`, the plain
matcher's nested evaluation equals the first pair's predicate alone. -/
theorem claim2_witness :
    isOpKey "$gt" = true
  ∧ Query.matchNested noRegex (.num 5)
      (.cons "$gt" (.num 1) (.cons "$lt" (.num 2) .nil))
      = Query.handleFieldOperator noRegex (.num 5) "$gt" (.num 1) :=
  ⟨by decide,
    (claim2_amended_operator_pairs noRegex (.num 5) "$gt" (.num 1)
      (.cons "$lt" (.num 2) .nil) .nil "f" .nil .nil (by decide)).1⟩

/-! ### C1: plain-query and chain-built evaluation agree -/

/-- Conditions a chain can build that the two matchers treat alike: a bare
non-object literal (what `eq` stores) or an operator mapping with exactly
one `$`-operator entry. -/
def chainCompatCond : Value → Bool
  | .obj (.cons k _ .nil) => isOpKey k
  | .obj _ => false
  | .arr _ => false
  | _ => true

def chainCompatQuery : FieldList → Bool
  | .nil => true
  | .cons f c rest => !isOpKey f && chainCompatCond c && chainCompatQuery rest

/-- On chain-compatible queries the two document matchers agree pointwise. -/
theorem matchOne_eq_matchDocument_compat (rt : Value → String → Bool) (doc : Doc) :
    ∀ q : FieldList, chainCompatQuery q = true →
      Query.matchOne rt doc q = Chain.matchDocument rt q doc
  | .nil, _ => rfl
  | .cons f (.obj (.cons k v .nil)) rest, h => by
    simp only [chainCompatQuery, chainCompatCond, Bool.and_eq_true,
      Bool.not_eq_true'] at h
    simp [Query.matchOne, h.1.1, Query.matchNested, Query.firstOpPair, h.1.2,
      Chain.matchDocument, Chain.evalPairs,
      handleFieldOperator_eq_evaluateOperator,
      matchOne_eq_matchDocument_compat rt doc rest h.2]
  | .cons f .undef rest, h => by
    simp only [chainCompatQuery, Bool.and_eq_true, Bool.not_eq_true'] at h
    simp [Query.matchOne, h.1.1, Chain.matchDocument,
      matchOne_eq_matchDocument_compat rt doc rest h.2]
  | .cons f .null rest, h => by
    simp only [chainCompatQuery, Bool.and_eq_true, Bool.not_eq_true'] at h
    simp [Query.matchOne, h.1.1, Chain.matchDocument,
      matchOne_eq_matchDocument_compat rt doc rest h.2]
  | .cons f (.bool b) rest, h => by
    simp only [chainCompatQuery, Bool.and_eq_true, Bool.not_eq_true'] at h
    simp [Query.matchOne, h.1.1, Chain.matchDocument,
      matchOne_eq_matchDocument_compat rt doc rest h.2]
  | .cons f (.num n) rest, h => by
    simp only [chainCompatQuery, Bool.and_eq_true, Bool.not_eq_true'] at h
    simp [Query.matchOne, h.1.1, Chain.matchDocument,
      matchOne_eq_matchDocument_compat rt doc rest h.2]
  | .cons f (.str s) rest, h => by
    simp only [chainCompatQuery, Bool.and_eq_true, Bool.not_eq_true'] at h
    simp [Query.matchOne, h.1.1, Chain.matchDocument,
      matchOne_eq_matchDocument_compat rt doc rest h.2]
  | .cons f (.arr xs) rest, h =>
    absurd h (by simp [chainCompatQuery, chainCompatCond])
  | .cons f (.obj .nil) rest, h =>
    absurd h (by simp [chainCompatQuery, chainCompatCond])
  | .cons f (.obj (.cons k v (.cons k2 v2 m))) rest, h =>
    absurd h (by simp [chainCompatQuery, chainCompatCond])

/-- `executeQuery` equals a filter by `matchDocument` whatever the query:
an empty query matches every document, so the empty-query shortcut returns
the same list the filter would. -/
theorem executeQuery_eq_filter (rt : Value → String → Bool)
    (ch : Chain) (coll : List Doc) :
    Chain.executeQuery rt ch coll
      = coll.filter (fun d => Chain.matchDocument rt ch.query d) := by
  unfold Chain.executeQuery
  match hq : ch.query with
  | .nil => simp [FieldList.isEmpty, Chain.matchDocument]
  | .cons f c rest => simp [FieldList.isEmpty]

/-- C1 counterexample: the chain built by `where("f").gt(1).lt(2)`
accumulates exactly the plain query `{f: {"$gt": 1, "$lt": 2}}`, yet on
the collection `[{f: 5}]` the plain path `find` keeps the document (the
first operator alone decides) while the chain path `get` drops it — the
two evaluation paths do not select the same documents. -/
theorem claim1_counterexample :
    (((( Chain.init.where' "f").gt (.num 1)).1.lt (.num 2)).1).query
      = .cons "f" (.obj (.cons "$gt" (.num 1) (.cons "$lt" (.num 2) .nil))) .nil
  ∧ JSONKit.find noRegex [.cons "f" (.num 5) .nil]
      (.cons "f" (.obj (.cons "$gt" (.num 1) (.cons "$lt" (.num 2) .nil))) .nil)
      = [.cons "f" (.num 5) .nil]
  ∧ Chain.get noRegex (((( Chain.init.where' "f").gt (.num 1)).1.lt (.num 2)).1)
      [.cons "f" (.num 5) .nil]
      = [] := by
  decide

/-- C1 amended: the two paths agree — element for element and in order —
for every query whose field conditions are chain-compatible: fields not
starting with `$`, each condition either a bare non-object literal (an
`eq` condition) or an operator mapping with exactly one operator; with
several operators on one field (or an array literal from `eq`) the paths
can differ, as the counterexample shows. -/
theorem claim1_amended_plain_chain_agree (rt : Value → String → Bool)
    (query : FieldList) (coll : List Doc) (cf : Option String) (io : Bool)
    (h : chainCompatQuery query = true) :
    JSONKit.find rt coll query
      = Chain.get rt
          { query := query, sortConfig := none, limitCount := none,
            skipCount := 0, currentField := cf, isOrCondition := io } coll := by
  have hfilters :
      coll.filter (fun d => Query.matchOne rt d query)
        = coll.filter (fun d => Chain.matchDocument rt query d) :=
    List.filter_congr (fun d _ => matchOne_eq_matchDocument_compat rt d query h)
  simp only [Chain.get, executeQuery_eq_filter]
  simp only [JSONKit.find, Query.matchList]
  match hq : query with
  | .nil => simp [FieldList.isEmpty, Chain.matchDocument]
  | .cons f c rest =>
    simp only [FieldList.isEmpty, Bool.false_eq_true, if_false]
    simpa using hfilters

/-- C1 witness: the headline instance `find(C, {age: {"$gt": 30}})` versus
`chain(C).where("age").gt(30).get()` state on a two-document collection. -/
theorem claim1_witness :
    chainCompatQuery (.cons "age" (.obj (.cons "$gt" (.num 30) .nil)) .nil) = true
  ∧ JSONKit.find noRegex
      [.cons "age" (.num 25) .nil, .cons "age" (.num 35) .nil]
      (.cons "age" (.obj (.cons "$gt" (.num 30) .nil)) .nil)
      = Chain.get noRegex
          { query := .cons "age" (.obj (.cons "$gt" (.num 30) .nil)) .nil,
            sortConfig := none, limitCount := none, skipCount := 0,
            currentField := some "age", isOrCondition := false }
          [.cons "age" (.num 25) .nil, .cons "age" (.num 35) .nil]
  ∧ (( Chain.init.where' "age").gt (.num 30)).1
      = { query := .cons "age" (.obj (.cons "$gt" (.num 30) .nil)) .nil,
          sortConfig := none, limitCount := none, skipCount := 0,
          currentField := some "age", isOrCondition := false } :=
  ⟨by decide,
    claim1_amended_plain_chain_agree noRegex
      (.cons "age" (.obj (.cons "$gt" (.num 30) .nil)) .nil)
      [.cons "age" (.num 25) .nil, .cons "age" (.num 35) .nil]
      (some "age") false (by decide),
    by decide⟩

/-! ### C6: terminal evaluation pipeline order -/

/-- C6: with a sort spec, a non-negative skip and a non-negative limit all
set, `get()` is exactly filter-by-query, then stable sort, then drop the
skip count, then take the limit — in that order; and on the spec's
concrete example `[{f:3},{f:1},{f:2}]` with `sort(f,'asc').skip(1).limit(1)`
the result is `[{f:2}]`. -/
theorem claim6_pipeline_order (rt : Value → String → Bool)
    (q : FieldList) (coll : List Doc) (f dir : String) (s l : Int)
    (cf : Option String) (io : Bool) (hs : 0 ≤ s) (hl : 0 ≤ l) :
    (Chain.get rt
        { query := q, sortConfig := some (f, dir), limitCount := some l,
          skipCount := s, currentField := cf, isOrCondition := io } coll
      = ((Chain.stableSort
            (fun a b => decide (Chain.compareDocs f dir a b ≤ 0))
            (coll.filter (fun d => Chain.matchDocument rt q d))).drop
          s.toNat).take l.toNat)
  ∧ Chain.get noRegex
      { query := .nil, sortConfig := some ("f", "asc"), limitCount := some 1,
        skipCount := 1, currentField := none, isOrCondition := false }
      [.cons "f" (.num 3) .nil, .cons "f" (.num 1) .nil, .cons "f" (.num 2) .nil]
      = [.cons "f" (.num 2) .nil] := by
  constructor
  · simp only [Chain.get, executeQuery_eq_filter, Chain.applySorting,
      Option.isSome_some, if_true, Chain.jsSliceTo, not_lt.mpr hl, if_false]
    rcases eq_or_lt_of_le hs with hz | hp
    · simp [← hz]
    · simp [hp]
  · decide

/-! ### C7: zero-match mutations never invoke the save collaborator -/

theorem applySorting_nil (ch : Chain) : ch.applySorting [] = [] := by
  unfold Chain.applySorting
  split <;> rfl

theorem get_nil_of_no_match (rt : Value → String → Bool) (ch : Chain)
    (coll : List Doc)
    (h1 : ∀ d ∈ coll, Chain.matchDocument rt ch.query d = false) :
    Chain.get rt ch coll = [] := by
  have hexec : Chain.executeQuery rt ch coll = [] := by
    rw [executeQuery_eq_filter]
    exact List.filter_eq_nil_iff.mpr (fun d hd => by simp [h1 d hd])
  simp only [Chain.get, hexec, applySorting_nil, List.drop_nil, ite_self]
  cases ch.limitCount <;> simp [Chain.jsSliceTo]

/-- C7: a chain `update`/`delete` whose query matches no document, and a
classic-API `update`/`delete` whose query matches no document, all return
count 0, leave the collection untouched, and never invoke the persistence
collaborator (`saveFn` for the chain, the `autoSave`-triggered `save` for
the classic API). -/
theorem claim7_zero_match_no_save (rt : Value → String → Bool) (ch : Chain)
    (coll : List Doc) (patch : Doc) (asave : Bool) (q : FieldList)
    (coll2 : List Doc) (patch2 : Doc)
    (h1 : ∀ d ∈ coll, Chain.matchDocument rt ch.query d = false)
    (h2 : ∀ d ∈ coll2, Query.matchOne rt d q = false) :
    Chain.update rt ch coll patch = ⟨coll, 0, 0⟩
  ∧ Chain.delete rt ch coll = ⟨coll, 0, 0⟩
  ∧ JSONKit.update rt asave coll2 q patch2 = ⟨coll2, 0, 0⟩
  ∧ JSONKit.delete rt asave coll2 q = ⟨coll2, 0, 0⟩ := by
  have hget := get_nil_of_no_match rt ch coll h1
  have hfilter2 : coll2.filter (fun d => Query.matchOne rt d q) = [] :=
    List.filter_eq_nil_iff.mpr (fun d hd => by simp [h2 d hd])
  refine ⟨?_, ?_, ?_, ?_⟩
  · simp [Chain.update, hget, updateLoop]
  · simp [Chain.delete, hget, docIncludes]
  · have hmap :
        coll2.map (fun d =>
          if Query.matchOne rt d q then objAssign d patch2 else d) = coll2 := by
      conv_rhs => rw [← List.map_id coll2]
      exact List.map_congr_left (fun d hd => by simp [h2 d hd])
    simp [JSONKit.update, hfilter2, hmap]
  · have hkeep : coll2.filter (fun d => !(Query.matchOne rt d q)) = coll2 :=
      List.filter_eq_self.mpr (fun d hd => by simp [h2 d hd])
    simp [JSONKit.delete, hkeep]

/-- C7 witness: the chain `where("b").eq(2)` and the plain query `{b: 2}`
match nothing in `[{a: 1}]`; update and delete return 0 with no save. -/
theorem claim7_witness :
    (∀ d ∈ [FieldList.cons "a" (.num 1) .nil],
      Chain.matchDocument noRegex
        (((( Chain.init.where' "b").eq (.num 2)).1).query) d = false)
  ∧ (∀ d ∈ [FieldList.cons "a" (.num 1) .nil],
      Query.matchOne noRegex d (.cons "b" (.num 2) .nil) = false)
  ∧ Chain.update noRegex ((( Chain.init.where' "b").eq (.num 2)).1)
      [FieldList.cons "a" (.num 1) .nil] (.cons "c" (.num 3) .nil)
      = ⟨[FieldList.cons "a" (.num 1) .nil], 0, 0⟩
  ∧ JSONKit.delete noRegex true [FieldList.cons "a" (.num 1) .nil]
      (.cons "b" (.num 2) .nil)
      = ⟨[FieldList.cons "a" (.num 1) .nil], 0, 0⟩ :=
  ⟨by decide, by decide,
    (claim7_zero_match_no_save noRegex ((( Chain.init.where' "b").eq (.num 2)).1)
      [FieldList.cons "a" (.num 1) .nil] (.cons "c" (.num 3) .nil) true
      (.cons "b" (.num 2) .nil) [FieldList.cons "a" (.num 1) .nil]
      (.cons "c" (.num 3) .nil) (by decide) (by decide)).1,
    (claim7_zero_match_no_save noRegex ((( Chain.init.where' "b").eq (.num 2)).1)
      [FieldList.cons "a" (.num 1) .nil] (.cons "c" (.num 3) .nil) true
      (.cons "b" (.num 2) .nil) [FieldList.cons "a" (.num 1) .nil]
      (.cons "c" (.num 3) .nil) (by decide) (by decide)).2.2.2⟩

/-! ### C8: matching is pure; only update/delete mutate, only matched docs -/

theorem mem_insertSorted (le : Doc → Doc → Bool) (d a : Doc) :
    ∀ l : List Doc, a ∈ Chain.insertSorted le d l → a = d ∨ a ∈ l := by
  intro l
  induction l with
  | nil =>
    intro h
    simp only [Chain.insertSorted] at h
    exact Or.inl (List.mem_singleton.mp h)
  | cons e rest ih =>
    intro h
    simp only [Chain.insertSorted] at h
    split at h
    · rcases List.mem_cons.mp h with he | h2
      · exact Or.inr (List.mem_cons.mpr (Or.inl he))
      · rcases ih h2 with h3 | h3
        · exact Or.inl h3
        · exact Or.inr (List.mem_cons.mpr (Or.inr h3))
    · rcases List.mem_cons.mp h with he | h2
      · exact Or.inl he
      · exact Or.inr h2

theorem mem_stableSortAux (le : Doc → Doc → Bool) (a : Doc) :
    ∀ (l acc : List Doc), a ∈ Chain.stableSortAux le acc l → a ∈ acc ∨ a ∈ l := by
  intro l
  induction l with
  | nil => intro acc h; exact Or.inl h
  | cons d rest ih =>
    intro acc h
    rcases ih _ h with h2 | h2
    · rcases mem_insertSorted le d a acc h2 with h3 | h3
      · exact Or.inr (by simp [h3])
      · exact Or.inl h3
    · exact Or.inr (List.mem_cons.mpr (Or.inr h2))

theorem mem_applySorting (ch : Chain) (xs : List Doc) (a : Doc)
    (h : a ∈ ch.applySorting xs) : a ∈ xs := by
  unfold Chain.applySorting at h
  split at h
  · unfold Chain.stableSort at h
    rcases mem_stableSortAux _ a xs [] h with h2 | h2
    · exact absurd h2 (List.not_mem_nil a)
    · exact h2
  · exact h

theorem mem_get_aux (rt : Value → String → Bool) (ch : Chain) (coll : List Doc)
    (d : Doc) (hd : d ∈ Chain.get rt ch coll) :
    d ∈ Chain.executeQuery rt ch coll := by
  simp only [Chain.get] at hd
  have peel : ∀ X : List Doc,
      d ∈ (if ch.sortConfig.isSome then ch.applySorting X else X) → d ∈ X := by
    intro X h
    split at h
    · exact mem_applySorting ch X d h
    · exact h
  rcases hlc : ch.limitCount with _ | l <;> simp only [hlc] at hd
  · split at hd
    · exact peel _ (List.mem_of_mem_drop hd)
    · exact peel _ hd
  · unfold Chain.jsSliceTo at hd
    split at hd <;> replace hd := List.mem_of_mem_take hd
    all_goals split at hd
    all_goals first
      | exact peel _ (List.mem_of_mem_drop hd)
      | exact peel _ hd

/-- Every document `get()` returns is a member of the backing collection,
unmodified, and matches the accumulated query. -/
theorem mem_get (rt : Value → String → Bool) (ch : Chain) (coll : List Doc)
    (d : Doc) (hd : d ∈ Chain.get rt ch coll) :
    d ∈ coll ∧ Chain.matchDocument rt ch.query d = true := by
  have h := mem_get_aux rt ch coll d hd
  rw [executeQuery_eq_filter] at h
  exact ⟨(List.mem_filter.mp h).1, (List.mem_filter.mp h).2⟩

theorem indexOfDoc_spec (d : Doc) : ∀ (coll : List Doc) (i : Nat),
    indexOfDoc coll d = some i → coll[i]? = some d := by
  intro coll
  induction coll with
  | nil => intro i h; simp [indexOfDoc] at h
  | cons e rest ih =>
    intro i h
    simp only [indexOfDoc] at h
    split at h
    · next heq =>
      injection h with h0
      subst h0
      simpa using of_decide_eq_true heq
    · rcases Option.map_eq_some'.mp h with ⟨j, hj, hji⟩
      subst hji
      simpa using ih j hj

theorem updateLoop_frame (patch : Doc) (P : Doc → Bool) :
    ∀ (rs coll : List Doc), (∀ r ∈ rs, P r = true) →
      ((updateLoop patch coll rs).1.length = coll.length
        ∧ ∀ (i : Nat) (di : Doc), coll[i]? = some di → P di = false →
            (updateLoop patch coll rs).1[i]? = some di) := by
  intro rs
  induction rs with
  | nil => intro coll h; exact ⟨rfl, fun i di h1 _ => h1⟩
  | cons r rest ih =>
    intro coll h
    have hr : P r = true := h r (by simp)
    have hrest : ∀ r' ∈ rest, P r' = true := fun r' hr' => h r' (by simp [hr'])
    rcases hidx : indexOfDoc coll r with _ | j
    · simpa only [updateLoop, hidx] using ih coll hrest
    · have hj : coll[j]? = some r := indexOfDoc_spec r coll j hidx
      have hlen' : (coll.set j (objAssign (coll.getD j .nil) patch)).length
          = coll.length := List.length_set coll j _
      obtain ⟨ihlen, ihframe⟩ :=
        ih (coll.set j (objAssign (coll.getD j .nil) patch)) hrest
      constructor
      · simpa only [updateLoop, hidx] using ihlen.trans hlen'
      · intro i di h1 h2
        have hij : j ≠ i := by
          intro he
          subst he
          rw [hj] at h1
          injection h1 with h1'
          subst h1'
          rw [hr] at h2
          simp at h2
        have h1' : (coll.set j (objAssign (coll.getD j .nil) patch))[i]?
            = some di := by
          rw [List.getElem?_set_ne hij]
          exact h1
        simpa only [updateLoop, hidx] using ihframe i di h1' h2

/-- C8: matching never mutates: the embedding's matchers are pure
functions, and the theorem records the frame facts that make the claim
contentful — (1) every document a non-mutating terminal (`get`, hence
`first`/`count`) returns is an unmodified member of the collection and
matches the query; (2) `update` keeps the collection's length and leaves
every position holding a non-matching document exactly as it was; (3)
`delete` keeps every non-matching document. -/
theorem claim8_matching_pure_frame (rt : Value → String → Bool)
    (ch : Chain) (coll : List Doc) (patch : Doc) :
    (∀ d : Doc, d ∈ Chain.get rt ch coll →
        d ∈ coll ∧ Chain.matchDocument rt ch.query d = true)
  ∧ ((Chain.update rt ch coll patch).collection.length = coll.length)
  ∧ (∀ (i : Nat) (di : Doc), coll[i]? = some di →
        Chain.matchDocument rt ch.query di = false →
        (Chain.update rt ch coll patch).collection[i]? = some di)
  ∧ (∀ d : Doc, d ∈ coll → Chain.matchDocument rt ch.query d = false →
        d ∈ (Chain.delete rt ch coll).collection) := by
  have hres : ∀ r ∈ Chain.get rt ch coll,
      Chain.matchDocument rt ch.query r = true :=
    fun r hr => (mem_get rt ch coll r hr).2
  obtain ⟨hlen, hframe⟩ :=
    updateLoop_frame patch (Chain.matchDocument rt ch.query)
      (Chain.get rt ch coll) coll hres
  refine ⟨fun d hd => mem_get rt ch coll d hd, hlen, hframe, ?_⟩
  intro d hd hnm
  have hninc : docIncludes (Chain.get rt ch coll) d = false := by
    cases hb : docIncludes (Chain.get rt ch coll) d
    · rfl
    · exfalso
      have hmem : d ∈ Chain.get rt ch coll := by simpa [docIncludes] using hb
      rw [hres d hmem] at hnm
      simp at hnm
  simp only [Chain.delete]
  exact List.mem_filter.mpr ⟨hd, by simp [hninc]⟩

/-- C8 witness: on `[{a:1},{a:2}]` with accumulated query `{a:1}`, the one
returned document is an unmodified member that matches; position 1 (the
non-matching `{a:2}`) is untouched by `update` and survives `delete`. -/
theorem claim8_witness :
    ((FieldList.cons "a" (.num 1) .nil) ∈
        Chain.get noRegex
          { query := .cons "a" (.num 1) .nil, sortConfig := none,
            limitCount := none, skipCount := 0, currentField := none,
            isOrCondition := false }
          [FieldList.cons "a" (.num 1) .nil, FieldList.cons "a" (.num 2) .nil])
  ∧ ([FieldList.cons "a" (.num 1) .nil,
        FieldList.cons "a" (.num 2) .nil][1]? = some (.cons "a" (.num 2) .nil))
  ∧ Chain.matchDocument noRegex (.cons "a" (.num 1) .nil)
      (.cons "a" (.num 2) .nil) = false
  ∧ ((FieldList.cons "a" (.num 1) .nil) ∈
        [FieldList.cons "a" (.num 1) .nil, FieldList.cons "a" (.num 2) .nil]
      ∧ Chain.matchDocument noRegex
          ({ query := FieldList.cons "a" (.num 1) .nil, sortConfig := none,
             limitCount := none, skipCount := 0, currentField := none,
             isOrCondition := false : Chain }).query
          (.cons "a" (.num 1) .nil) = true)
  ∧ ((Chain.update noRegex
        { query := .cons "a" (.num 1) .nil, sortConfig := none,
          limitCount := none, skipCount := 0, currentField := none,
          isOrCondition := false }
        [FieldList.cons "a" (.num 1) .nil, FieldList.cons "a" (.num 2) .nil]
        (.cons "b" (.num 9) .nil)).collection[1]?
      = some (.cons "a" (.num 2) .nil))
  ∧ ((FieldList.cons "a" (.num 2) .nil) ∈
      (Chain.delete noRegex
        { query := .cons "a" (.num 1) .nil, sortConfig := none,
          limitCount := none, skipCount := 0, currentField := none,
          isOrCondition := false }
        [FieldList.cons "a" (.num 1) .nil,
          FieldList.cons "a" (.num 2) .nil]).collection) :=
  ⟨by decide, by decide, by decide,
    (claim8_matching_pure_frame noRegex
      { query := .cons "a" (.num 1) .nil, sortConfig := none,
        limitCount := none, skipCount := 0, currentField := none,
        isOrCondition := false }
      [FieldList.cons "a" (.num 1) .nil, FieldList.cons "a" (.num 2) .nil]
      (.cons "b" (.num 9) .nil)).1 (.cons "a" (.num 1) .nil) (by decide),
    (claim8_matching_pure_frame noRegex
      { query := .cons "a" (.num 1) .nil, sortConfig := none,
        limitCount := none, skipCount := 0, currentField := none,
        isOrCondition := false }
      [FieldList.cons "a" (.num 1) .nil, FieldList.cons "a" (.num 2) .nil]
      (.cons "b" (.num 9) .nil)).2.2.1 1 (.cons "a" (.num 2) .nil)
      (by decide) (by decide),
    (claim8_matching_pure_frame noRegex
      { query := .cons "a" (.num 1) .nil, sortConfig := none,
        limitCount := none, skipCount := 0, currentField := none,
        isOrCondition := false }
      [FieldList.cons "a" (.num 1) .nil, FieldList.cons "a" (.num 2) .nil]
      (.cons "b" (.num 9) .nil)).2.2.2 (.cons "a" (.num 2) .nil)
      (by decide) (by decide)⟩

/-- C6 witness: the pipeline equation instantiated at the spec's concrete
example (sort by `f` ascending, skip 1, limit 1). -/
theorem claim6_witness :
    (0 : Int) ≤ 1
  ∧ ((Chain.get noRegex
        { query := .nil, sortConfig := some ("f", "asc"), limitCount := some 1,
          skipCount := 1, currentField := none, isOrCondition := false }
        [FieldList.cons "f" (.num 3) .nil, FieldList.cons "f" (.num 1) .nil,
          FieldList.cons "f" (.num 2) .nil]
      = ((Chain.stableSort
            (fun a b => decide (Chain.compareDocs "f" "asc" a b ≤ 0))
            ([FieldList.cons "f" (.num 3) .nil, FieldList.cons "f" (.num 1) .nil,
              FieldList.cons "f" (.num 2) .nil].filter
              (fun d => Chain.matchDocument noRegex .nil d))).drop
          (1 : Int).toNat).take (1 : Int).toNat)
    ∧ Chain.get noRegex
        { query := .nil, sortConfig := some ("f", "asc"), limitCount := some 1,
          skipCount := 1, currentField := none, isOrCondition := false }
        [FieldList.cons "f" (.num 3) .nil, FieldList.cons "f" (.num 1) .nil,
          FieldList.cons "f" (.num 2) .nil]
      = [FieldList.cons "f" (.num 2) .nil]) :=
  ⟨by decide,
    claim6_pipeline_order noRegex .nil
      [FieldList.cons "f" (.num 3) .nil, FieldList.cons "f" (.num 1) .nil,
        FieldList.cons "f" (.num 2) .nil]
      "f" "asc" 1 1 none false (by decide) (by decide)⟩
